import Mathlib

/-!
Shallow embedding of `src/src/main/cpp/tox/core/variant.h`: a recursive
tagged-union (`variant_storage`) over a compile-time list of alternative
types, with positional tags, a sentinel "empty" tag, lifecycle operations
(value construction, default construction, copy, move, destruction,
assignment, clear, emptiness test) and tag-driven visitor dispatch.

Modelling conventions:
* An alternative type is identified by its assigned tag (its distance from
  the end of the type list); payload values are modelled uniformly as `Nat`.
* The recursion over the type list `variant_storage<Tag, Head, Tail...>`
  becomes recursion on `n : Nat`, the number of alternatives remaining; the
  level handling `Head` has `index = sizeof... (Tail) = n - 1`.
* `Tag` is `unsigned char` (the `variant` alias instantiates
  `variant_storage<unsigned char, Types...>`), so the sentinel
  `invalid_index = static_cast<Tag> (-1)` is `255`.
* A `static_assert` failure or an `assert` reaching its fatal branch is
  modelled as `Option.none`; destructor and handler invocations are
  recorded as explicit event lists so that "exactly once" claims are
  statable.
-/

namespace Variant

/-- Sentinel tag: `invalid_index = static_cast<Tag> (-1)` with
`Tag = unsigned char`, i.e. `255`. -/
def invalid_index : Nat := 255

/-- Tag assignment of `variant_storage`: each level declares
`static Tag const index = sizeof... (Tail)`, so the head of a type list is
assigned the length of its tail, recursively.  `indexList l` is the list of
tags assigned to the types of `l`, in order. -/
def indexList {α : Type} : List α → List Nat
  | [] => []
  | _ :: tail => tail.length :: indexList tail

/-- A variant cell: the overlaid storage reduced to its observable state,
a tag (`head.tag`, which all levels of the union alias at offset 0) and the
payload bytes.  When `tag = invalid_index` no payload is live and `payload`
is residual storage content. -/
structure Cell where
  tag : Nat
  payload : Nat
deriving DecidableEq, Repr

/-- Value construction `variant_storage (T const &value)`: the constructor
chain forwards `value` into `tail` until the level whose `Head` is `T`,
which stores `head { index, head }`.  Modelled as recursion comparing the
target tag `t` with each level's `index`; falling through to the empty base
case hits `static_assert (is_void<T>, "Attempted to instantiate variant
with incorrect type")`, modelled as `none`. -/
def construct : Nat → Nat → Nat → Option Cell
  | 0, _, _ => none
  | m + 1, t, p => if t = m then some ⟨m, p⟩ else construct m t p

/-- Default construction `variant_storage ()`: sets `head.tag =
invalid_index`; the payload storage is uninitialized (modelled as `0`,
never observed). -/
def defaultConstruct : Cell := ⟨invalid_index, 0⟩

/-- `empty () const`: `head.tag == invalid_index`. -/
def Cell.empty (c : Cell) : Bool := c.tag == invalid_index

/-- Destructor `~variant_storage ()`: at each level, if `head.tag == index`
run `Head`'s destructor on `head.value`, else recurse into
`tail.~tail_type ()`; the empty base case destroys nothing.  Returns the
list of payload-destructor runs as `(tag, payload)` pairs. -/
def destructorRuns : Nat → Cell → List (Nat × Nat)
  | 0, _ => []
  | m + 1, c => if c.tag = m then [(m, c.payload)] else destructorRuns m c

/-- `clear ()`: runs `this->~variant_storage ()` then sets
`head.tag = invalid_index`; payload storage bytes are left behind.
Returns the cleared cell and the destructor runs. -/
def clear (n : Nat) (c : Cell) : Cell × List (Nat × Nat) :=
  (⟨invalid_index, c.payload⟩, destructorRuns n c)

/-- Lifecycle events of an assignment: payload destructor runs and payload
constructions, in program order. -/
inductive Event where
  | destroy (tag payload : Nat)
  | construct (tag payload : Nat)
deriving DecidableEq, Repr

/-- `operator = (T const &value)`: destroy self
(`this->~variant_storage ()`), then placement-new construct from `value`
(`new (this) variant_storage (value)`).  Returns the resulting cell
(`none` if `value`'s type is not an alternative, a compile-time error) and
the event trace: all destructor runs of the old payload, then the
construction of the new payload. -/
def assign (n : Nat) (c : Cell) (t p : Nat) : Option Cell × List Event :=
  (construct n t p,
   (destructorRuns n c).map (fun dp => Event.destroy dp.1 dp.2) ++
     [Event.construct t p])

/-- `dispatch<Result> (Visitor const &v)`: at each level, if
`head.tag == index` invoke `v (head.value)` and return its result, else
recurse into `tail.dispatch<Result> (v)`; the empty base case hits
`assert (!"Attempted to visit empty variant")`, modelled as `none`.  The
visitor is modelled as a function from handler tag and payload to result;
the returned list records every handler invocation `(tag, argument)`. -/
def dispatch {R : Type} : Nat → Cell → (Nat → Nat → R) → Option (R × List (Nat × Nat))
  | 0, _, _ => none
  | m + 1, c, v =>
      if c.tag = m then some (v m c.payload, [(m, c.payload)])
      else dispatch m c v

/-- Copy construction `variant_storage (variant_storage const &rhs)`: at
each level, if `rhs.head.tag == index` copy-construct `head` (tag and
payload) from `rhs.head`, else copy-construct `tail` from `rhs.tail`,
recursively, then `assert (head.tag == rhs.head.tag)`.  If no level
matches (empty or corrupted source), the trivial base copy leaves the new
cell's tag uninitialized and the assert fires on the way back up: modelled
as `none`. -/
def copyConstruct : Nat → Cell → Option Cell
  | 0, _ => none
  | m + 1, c => if c.tag = m then some ⟨m, c.payload⟩ else copyConstruct m c

/-- Move construction `variant_storage (variant_storage &&rhs)`: same
branch structure as copy, with `head_type (std::move (rhs.head))`, which
copies the `Tag` field and move-constructs the payload; the source keeps
its tag and is left with a moved-from but destructible payload (payloads
are plain values here, so the move is modelled as a copy).  Returns the new
cell and the moved-from source. -/
def moveConstruct : Nat → Cell → Option (Cell × Cell)
  | 0, _ => none
  | m + 1, c =>
      if c.tag = m then some (⟨m, c.payload⟩, ⟨m, c.payload⟩)
      else moveConstruct m c

/-- An in-place mutation of a cell's live payload (models a dispatch whose
handler mutates the payload state through a reference). -/
def mutate (c : Cell) (f : Nat → Nat) : Cell := ⟨c.tag, f c.payload⟩

/-- `visitor_accept<Result>`: the helper returned by `visit<Result> ()`,
holding a reference to the variant. -/
structure visitor_accept (R : Type) where
  variant_ : Cell

/-- `visit<Result> () const`: builds a `visitor_accept` over this cell. -/
def visitPending (R : Type) (c : Cell) : visitor_accept R := ⟨c⟩

/-- `visitor_accept::operator >>= (visitor<Result> const &v)`: calls
`variant_.dispatch<Result> (v)`. -/
def bindVisit {R : Type} (n : Nat) (va : visitor_accept R)
    (v : Nat → Nat → R) : Option (R × List (Nat × Nat)) :=
  dispatch n va.variant_ v

/-- `visit<Result> (visitor<Result> const &v)`: calls
`dispatch<Result> (v)`. -/
def visit {R : Type} (n : Nat) (c : Cell) (v : Nat → Nat → R) :
    Option (R × List (Nat × Nat)) :=
  dispatch n c v

/-- `operator () (Visitor const &v) const`: calls
`dispatch<result_of<Visitor (Head)>> (v)`. -/
def callOperator {R : Type} (n : Nat) (c : Cell) (v : Nat → Nat → R) :
    Option (R × List (Nat × Nat)) :=
  dispatch n c v

/-! Helper lemmas -/

theorem construct_lt (p : Nat) :
    ∀ n t, t < n → construct n t p = some ⟨t, p⟩ := by
  intro n
  induction n with
  | zero => intro t ht; exact absurd ht (Nat.not_lt_zero t)
  | succ m ih =>
    intro t ht
    rcases Nat.lt_succ_iff_lt_or_eq.mp ht with h | h
    · have hne : t ≠ m := Nat.ne_of_lt h
      simp [construct, hne, ih t h]
    · subst h
      simp [construct]

theorem dispatch_lt {R : Type} (v : Nat → Nat → R) (p : Nat) :
    ∀ n t, t < n →
      dispatch n (⟨t, p⟩ : Cell) v = some (v t p, [(t, p)]) := by
  intro n
  induction n with
  | zero => intro t ht; exact absurd ht (Nat.not_lt_zero t)
  | succ m ih =>
    intro t ht
    rcases Nat.lt_succ_iff_lt_or_eq.mp ht with h | h
    · have hne : t ≠ m := Nat.ne_of_lt h
      simp [dispatch, hne, ih t h]
    · subst h
      simp [dispatch]

theorem dispatch_ge {R : Type} (v : Nat → Nat → R) :
    ∀ n (c : Cell), n ≤ c.tag → dispatch n c v = none := by
  intro n
  induction n with
  | zero => intro c _; rfl
  | succ m ih =>
    intro c h
    have hne : c.tag ≠ m := by omega
    simp [dispatch, hne, ih c (by omega)]

theorem destructorRuns_lt (p : Nat) :
    ∀ n t, t < n → destructorRuns n ⟨t, p⟩ = [(t, p)] := by
  intro n
  induction n with
  | zero => intro t ht; exact absurd ht (Nat.not_lt_zero t)
  | succ m ih =>
    intro t ht
    rcases Nat.lt_succ_iff_lt_or_eq.mp ht with h | h
    · have hne : t ≠ m := Nat.ne_of_lt h
      simp [destructorRuns, hne, ih t h]
    · subst h
      simp [destructorRuns]

theorem destructorRuns_ge :
    ∀ n (c : Cell), n ≤ c.tag → destructorRuns n c = [] := by
  intro n
  induction n with
  | zero => intro c _; rfl
  | succ m ih =>
    intro c h
    have hne : c.tag ≠ m := by omega
    simp [destructorRuns, hne, ih c (by omega)]

theorem copyConstruct_lt (p : Nat) :
    ∀ n t, t < n → copyConstruct n ⟨t, p⟩ = some ⟨t, p⟩ := by
  intro n
  induction n with
  | zero => intro t ht; exact absurd ht (Nat.not_lt_zero t)
  | succ m ih =>
    intro t ht
    rcases Nat.lt_succ_iff_lt_or_eq.mp ht with h | h
    · have hne : t ≠ m := Nat.ne_of_lt h
      simp [copyConstruct, hne, ih t h]
    · subst h
      simp [copyConstruct]

theorem copyConstruct_ge :
    ∀ n (c : Cell), n ≤ c.tag → copyConstruct n c = none := by
  intro n
  induction n with
  | zero => intro c _; rfl
  | succ m ih =>
    intro c h
    have hne : c.tag ≠ m := by omega
    simp [copyConstruct, hne, ih c (by omega)]

theorem moveConstruct_lt (p : Nat) :
    ∀ n t, t < n →
      moveConstruct n ⟨t, p⟩ = some (⟨t, p⟩, ⟨t, p⟩) := by
  intro n
  induction n with
  | zero => intro t ht; exact absurd ht (Nat.not_lt_zero t)
  | succ m ih =>
    intro t ht
    rcases Nat.lt_succ_iff_lt_or_eq.mp ht with h | h
    · have hne : t ≠ m := Nat.ne_of_lt h
      simp [moveConstruct, hne, ih t h]
    · subst h
      simp [moveConstruct]

theorem indexList_eq_reverse_range {α : Type} :
    ∀ l : List α, indexList l = (List.range l.length).reverse := by
  intro l
  induction l with
  | nil => rfl
  | cons x t ih =>
    simp [indexList, ih, List.range_succ]

/-! Claim theorems -/

/-- C1: for every alternative (tag `t < n`) and value `p`, constructing a
cell from `p` yields the cell tagged `t`, and dispatching a complete
handler set `v` on it invokes exactly the handler for tag `t`, passes it
`p`, returns that handler's result `v t p`, and the invocation list is the
singleton `[(t, p)]`: no other handler is invoked and none more than
once. -/
theorem construct_then_dispatch {R : Type} (n t p : Nat)
    (v : Nat → Nat → R) (h : t < n) :
    construct n t p = some ⟨t, p⟩ ∧
    dispatch n (⟨t, p⟩ : Cell) v = some (v t p, [(t, p)]) :=
  ⟨construct_lt p n t h, dispatch_lt v p n t h⟩

theorem construct_then_dispatch_witness :
    construct 3 1 42 = some ⟨1, 42⟩ ∧
    dispatch 3 (⟨1, 42⟩ : Cell) (fun i x => 100 * i + x) =
      some (142, [(1, 42)]) :=
  construct_then_dispatch 3 1 42 (fun i x => 100 * i + x) (by decide)

/-- C2: dispatching on an empty cell (tag equal to the sentinel
`invalid_index`) matches no level, reaches the base case of the recursion
and halts at `assert (!"Attempted to visit empty variant")`, modelled as
`none`: no handler result is returned. -/
theorem dispatch_on_empty_asserts {R : Type} (n p : Nat)
    (v : Nat → Nat → R) (h : n ≤ invalid_index) :
    dispatch n (⟨invalid_index, p⟩ : Cell) v = none :=
  dispatch_ge v n ⟨invalid_index, p⟩ h

theorem dispatch_on_empty_asserts_witness :
    dispatch 3 (⟨invalid_index, 0⟩ : Cell) (fun i x => i + x) = none :=
  dispatch_on_empty_asserts 3 0 (fun i x => i + x) (by decide)

/-- C3: for every list of `N` distinct alternative types with `N ≤ 255`,
the assigned tags are exactly `N-1, ..., 1, 0` in list order (contiguous,
last type gets `0`, each tag is the type's distance from the end of the
list), pairwise distinct, and none equals the sentinel `invalid_index`. -/
theorem tag_assignment {α : Type} (l : List α) (_hd : l.Nodup)
    (hN : l.length ≤ 255) :
    indexList l = (List.range l.length).reverse ∧
    (indexList l).Nodup ∧
    (∀ j, j < l.length →
      (indexList l)[j]? = some (l.length - 1 - j)) ∧
    invalid_index ∉ indexList l := by
  refine ⟨indexList_eq_reverse_range l, ?_, ?_, ?_⟩
  · rw [indexList_eq_reverse_range]
    exact List.nodup_reverse.mpr (List.nodup_range _)
  · intro j hj
    rw [indexList_eq_reverse_range]
    rw [List.getElem?_reverse (by simpa using hj)]
    simp only [List.length_range]
    rw [List.getElem?_range (by omega)]
  · rw [indexList_eq_reverse_range]
    intro hmem
    rw [List.mem_reverse, List.mem_range] at hmem
    have : (255 : Nat) < l.length := by
      simpa [invalid_index] using hmem
    omega

theorem tag_assignment_witness :
    indexList [10, 20, 30] = (List.range 3).reverse ∧
    (indexList [10, 20, 30]).Nodup ∧
    (∀ j, j < ([10, 20, 30] : List Nat).length →
      (indexList [10, 20, 30])[j]? = some (3 - 1 - j)) ∧
    invalid_index ∉ indexList [10, 20, 30] :=
  tag_assignment [10, 20, 30] (by decide) (by decide)

/-- C4: assigning a value `b1` of alternative `B` to a cell holding `a1`
of alternative `A` first runs `a1`'s destructor exactly once, then
constructs `b1` (the event trace is exactly
`[destroy A a1, construct B b1]`, so the old payload is already destroyed
when the new one is built and no rollback is possible), and yields the
cell tagged `B` whose dispatch invokes only `B`'s handler with `b1`. -/
theorem assign_replaces {R : Type} (n A a1 B b1 : Nat)
    (v : Nat → Nat → R) (hA : A < n) (hB : B < n) :
    assign n ⟨A, a1⟩ B b1 =
      (some ⟨B, b1⟩, [Event.destroy A a1, Event.construct B b1]) ∧
    dispatch n (⟨B, b1⟩ : Cell) v = some (v B b1, [(B, b1)]) := by
  refine ⟨?_, dispatch_lt v b1 n B hB⟩
  simp [assign, construct_lt b1 n B hB, destructorRuns_lt a1 n A hA]

theorem assign_replaces_witness :
    assign 3 ⟨2, 7⟩ 0 9 =
      (some ⟨0, 9⟩, [Event.destroy 2 7, Event.construct 0 9]) ∧
    dispatch 3 (⟨0, 9⟩ : Cell) (fun i x => 100 * i + x) =
      some (9, [(0, 9)]) :=
  assign_replaces 3 2 7 0 9 (fun i x => 100 * i + x)
    (by decide) (by decide)

/-- C5: a freshly default-constructed cell reports `empty () = true`, and
for a cell constructed from a value `p` of the alternative with tag `t`,
`clear` runs that payload's destructor exactly once (the destructor-run
list is the singleton `[(t, p)]`) and leaves the cell with
`empty () = true` (tag equal to the sentinel). -/
theorem empty_after_default_and_clear (n t p : Nat) (ht : t < n) :
    defaultConstruct.empty = true ∧
    construct n t p = some ⟨t, p⟩ ∧
    (clear n ⟨t, p⟩).1.empty = true ∧
    (clear n ⟨t, p⟩).2 = [(t, p)] := by
  refine ⟨rfl, construct_lt p n t ht, rfl, ?_⟩
  simpa [clear] using destructorRuns_lt p n t ht

theorem empty_after_default_and_clear_witness :
    defaultConstruct.empty = true ∧
    construct 3 2 5 = some ⟨2, 5⟩ ∧
    (clear 3 ⟨2, 5⟩).1.empty = true ∧
    (clear 3 ⟨2, 5⟩).2 = [(2, 5)] :=
  empty_after_default_and_clear 3 2 5 (by decide)

/-- C6: `clear` is idempotent: after one `clear` the cell's tag is the
sentinel, so a second `clear` matches no destructor branch (it runs no
payload destructor, destructor-run list `[]`) and leaves the cell in
exactly the state the first `clear` produced. -/
theorem clear_idempotent (n : Nat) (c : Cell) (hn : n ≤ invalid_index) :
    (clear n (clear n c).1).1 = (clear n c).1 ∧
    (clear n (clear n c).1).2 = [] := by
  constructor
  · rfl
  · exact destructorRuns_ge n ⟨invalid_index, c.payload⟩ hn

theorem clear_idempotent_witness :
    (clear 3 (clear 3 ⟨1, 8⟩).1).1 = (clear 3 ⟨1, 8⟩).1 ∧
    (clear 3 (clear 3 ⟨1, 8⟩).1).2 = [] :=
  clear_idempotent 3 ⟨1, 8⟩ (by decide)

/-- C7: copy construction from a source cell holding payload `p` under tag
`t` yields a new cell with the same tag whose payload is copy-constructed
from the source's live payload; the copy is an independent cell, so
mutating the copy's payload by any `f` leaves the source unchanged: the
source still dispatches its original payload `p`. -/
theorem copy_independence {R : Type} (n t p : Nat) (v : Nat → Nat → R)
    (ht : t < n) :
    copyConstruct n ⟨t, p⟩ = some ⟨t, p⟩ ∧
    (∀ f : Nat → Nat,
      mutate ⟨t, p⟩ f = ⟨t, f p⟩ ∧
      dispatch n (⟨t, p⟩ : Cell) v = some (v t p, [(t, p)])) :=
  ⟨copyConstruct_lt p n t ht,
   fun _ => ⟨rfl, dispatch_lt v p n t ht⟩⟩

theorem copy_independence_witness :
    copyConstruct 3 ⟨0, 4⟩ = some ⟨0, 4⟩ ∧
    (∀ f : Nat → Nat,
      mutate ⟨0, 4⟩ f = ⟨0, f 4⟩ ∧
      dispatch 3 (⟨0, 4⟩ : Cell) (fun i x => 100 * i + x) =
        some (4, [(0, 4)])) :=
  copy_independence 3 0 4 (fun i x => 100 * i + x) (by decide)

/-- C8: move construction from a source cell holding alternative `t`
yields a new cell with the same tag and leaves the source in a moved-from
but still-tagged state (tag unchanged); destroying the moved-from source
afterwards runs exactly one payload destructor, the one matching tag `t`,
so no payload is double-destroyed. -/
theorem move_leaves_source_destructible (n t p : Nat) (ht : t < n) :
    moveConstruct n ⟨t, p⟩ = some (⟨t, p⟩, ⟨t, p⟩) ∧
    destructorRuns n ⟨t, p⟩ = [(t, p)] :=
  ⟨moveConstruct_lt p n t ht, destructorRuns_lt p n t ht⟩

theorem move_leaves_source_destructible_witness :
    moveConstruct 3 ⟨2, 6⟩ = some (⟨2, 6⟩, ⟨2, 6⟩) ∧
    destructorRuns 3 ⟨2, 6⟩ = [(2, 6)] :=
  move_leaves_source_destructible 3 2 6 (by decide)

/-- C9: copy-constructing from an empty source cell (tag equal to the
sentinel) matches no level of the recursion, so the tag of the new cell is
never initialized and the `assert (head.tag == rhs.head.tag)` is the only
guard: the operation is fatal (modelled as `none`), not defined to yield
an empty cell or any other value. -/
theorem copy_empty_asserts (n p : Nat) (hn : n ≤ invalid_index) :
    copyConstruct n (⟨invalid_index, p⟩ : Cell) = none :=
  copyConstruct_ge n ⟨invalid_index, p⟩ hn

theorem copy_empty_asserts_witness :
    copyConstruct 3 (⟨invalid_index, 0⟩ : Cell) = none :=
  copy_empty_asserts 3 0 (by decide)

/-- C10: for every non-empty cell `c` (tag `c.tag < n`) and complete
visitor `v`, the three entry points `operator () (v)`,
`visit<R> (v)` and `visit<R> () >>= v` all delegate to the same
tag-driven `dispatch` and return the same result, namely the result of the
unique matching handler. -/
theorem entry_points_equivalent {R : Type} (n : Nat) (c : Cell)
    (v : Nat → Nat → R) (h : c.tag < n) :
    callOperator n c v = some (v c.tag c.payload, [(c.tag, c.payload)]) ∧
    visit n c v = callOperator n c v ∧
    bindVisit n (visitPending R c) v = callOperator n c v := by
  refine ⟨?_, rfl, rfl⟩
  have : dispatch n (⟨c.tag, c.payload⟩ : Cell) v =
      some (v c.tag c.payload, [(c.tag, c.payload)]) :=
    dispatch_lt v c.payload n c.tag h
  simpa [callOperator] using this

theorem entry_points_equivalent_witness :
    callOperator 3 (⟨1, 5⟩ : Cell) (fun i x => 100 * i + x) =
      some (105, [(1, 5)]) ∧
    visit 3 (⟨1, 5⟩ : Cell) (fun i x => 100 * i + x) =
      callOperator 3 (⟨1, 5⟩ : Cell) (fun i x => 100 * i + x) ∧
    bindVisit 3 (visitPending Nat ⟨1, 5⟩) (fun i x => 100 * i + x) =
      callOperator 3 (⟨1, 5⟩ : Cell) (fun i x => 100 * i + x) :=
  entry_points_equivalent 3 ⟨1, 5⟩ (fun i x => 100 * i + x) (by decide)

end Variant
